import Mathlib

/-!
Verification development for the Rodovid genealogy backend.

This file gives a shallow embedding of the core of the repository:
the flexible historical-date resolver (`utils/time_resolver.py`),
the consistency validators (`validators.py`), and the graph operations
of `neo4j_db.py` (person CRUD, family edges, ghost-node deletion, and
the sharing handshake), together with theorems settling the frozen
claims about them.
-/

namespace Rodovid

/-! ## Date resolver (utils/time_resolver.py) -/

/-- Input accepted by `TimeResolver.resolve`: an int, a string, or Python `None`. -/
inductive DateInput where
  | int (n : Int)
  | str (s : String)
  | null
deriving DecidableEq, Repr

/-- Result record of `TimeResolver.resolve` (dataclass `ResolvedDate`). -/
structure ResolvedDate where
  year : Option Int
  original : String
  is_approximate : Bool
  range_start : Option Int
  range_end : Option Int
  confidence : String
deriving DecidableEq, Repr

/-- Python `\s` class as used by `strip()` and the date regexes
(ASCII whitespace; exotic Unicode whitespace is not modelled). -/
def pyIsSpace (c : Char) : Bool :=
  c = ' ' ∨ c = '\t' ∨ c = '\n' ∨ c = '\r' ∨ c = '\x0b' ∨ c = '\x0c'

/-- Case folding as performed by `re.IGNORECASE`, restricted to ASCII
letters and the Cyrillic letters appearing in the patterns. -/
def lowerChar (c : Char) : Char :=
  if 'A' ≤ c ∧ c ≤ 'Z' then Char.ofNat (c.toNat + 32)
  else if 0x410 ≤ c.toNat ∧ c.toNat ≤ 0x42F then Char.ofNat (c.toNat + 0x20)
  else if 0x400 ≤ c.toNat ∧ c.toNat ≤ 0x40F then Char.ofNat (c.toNat + 0x50)
  else c

/-- Python `str.strip()`. -/
def pyStrip (s : String) : List Char :=
  ((s.data.dropWhile pyIsSpace).reverse.dropWhile pyIsSpace).reverse

/-- Numeric value of a decimal digit character. -/
def dVal (c : Char) : Int := Int.ofNat (c.toNat - '0'.toNat)

/-- Consume exactly four decimal digits (`\d{4}`), returning their value
and the remaining characters. -/
def take4 : List Char → Option (Int × List Char)
  | a :: b :: c :: d :: rest =>
    if a.isDigit ∧ b.isDigit ∧ c.isDigit ∧ d.isDigit then
      some (1000 * dVal a + 100 * dVal b + 10 * dVal c + dVal d, rest)
    else none
  | _ => none

/-- The date separators `[-./]`. -/
def isSep (c : Char) : Bool := c = '-' ∨ c = '.' ∨ c = '/'

/-- Consume one or two decimal digits (`\d{1,2}`), greedily; because a
digit is never a separator, greedy matching without backtracking is
equivalent to the regex here. -/
def dd : List Char → Option (List Char)
  | a :: b :: rest =>
    if a.isDigit then (if b.isDigit then some rest else some (b :: rest)) else none
  | a :: [] => if a.isDigit then some [] else none
  | [] => none

/-- Pattern `exact`: `^(\d{4})(?:[-./]\d{1,2}[-./]\d{1,2})?$`. -/
def matchExact (t : List Char) : Option Int :=
  match take4 t with
  | some (y, []) => some y
  | some (y, s :: rest) =>
    if isSep s then
      match dd rest with
      | some (s2 :: rest2) =>
        if isSep s2 then
          match dd rest2 with
          | some [] => some y
          | _ => none
        else none
      | _ => none
    else none
  | none => none

/-- Pattern `exact_euro`: `^\d{1,2}[-./]\d{1,2}[-./](\d{4})$`. -/
def matchEuro (t : List Char) : Option Int :=
  match dd t with
  | some (s :: r1) =>
    if isSep s then
      match dd r1 with
      | some (s2 :: r2) =>
        if isSep s2 then
          match take4 r2 with
          | some (y, []) => some y
          | _ => none
        else none
      | _ => none
    else none
  | _ => none

/-- Exactly four digits followed by end of input (`(\d{4})$`). -/
def endYear4 (l : List Char) : Option Int :=
  match take4 l with
  | some (y, []) => some y
  | _ => none

/-- Consume a literal keyword. -/
def dropKw : List Char → List Char → Option (List Char)
  | [], rest => some rest
  | k :: ks, c :: cs => if c = k then dropKw ks cs else none
  | _ :: _, [] => none

/-- Keyword followed by `\s+(\d{4})$`. -/
def kwSpacesYear (kw : List Char) (l : List Char) : Option Int :=
  match dropKw kw l with
  | some (c :: cs) =>
    if pyIsSpace c then endYear4 ((c :: cs).dropWhile pyIsSpace) else none
  | _ => none

/-- Pattern `approximate`:
`^(?:c\.?\s*|~|≈|circa\s+|близько\s+|приблизно\s+|біля\s+)(\d{4})$`,
applied to the case-folded text. -/
def matchApprox (l : List Char) : Option Int :=
  (match l with
   | 'c' :: rest =>
     let rest2 := match rest with
       | '.' :: rs => rs
       | _ => rest
     endYear4 (rest2.dropWhile pyIsSpace)
   | _ => none) <|>
  (match l with
   | '~' :: rest => endYear4 rest
   | '≈' :: rest => endYear4 rest
   | _ => none) <|>
  kwSpacesYear "circa".data l <|>
  kwSpacesYear "близько".data l <|>
  kwSpacesYear "приблизно".data l <|>
  kwSpacesYear "біля".data l

/-- Pattern `range`: `^(\d{4})(?:\.{2}|[-–—])(\d{4})$`. -/
def matchRange (t : List Char) : Option (Int × Int) :=
  match take4 t with
  | some (a, '.' :: '.' :: rest) =>
    (match take4 rest with
     | some (b, []) => some (a, b)
     | _ => none)
  | some (a, c :: rest) =>
    if c = '-' ∨ c = '–' ∨ c = '—' then
      match take4 rest with
      | some (b, []) => some (a, b)
      | _ => none
    else none
  | _ => none

/-- The auxiliary `не\s*відомо` alternative of the `unknown` pattern. -/
def neVidomo : List Char → Bool
  | 'н' :: 'е' :: rest => (rest.dropWhile pyIsSpace) = "відомо".data
  | _ => false

/-- Pattern `unknown`: `^(?:\?|unknown|невідомо|empty|не\s*відомо|\s*)$`,
case-insensitive. -/
def matchUnknown (t : List Char) : Bool :=
  let l := t.map lowerChar
  l = ['?'] ∨ l = "unknown".data ∨ l = "невідомо".data ∨ l = "empty".data ∨
    neVidomo l ∨ l.all pyIsSpace

/-- `re.search` of `(\d{4})`: the leftmost run of four digits. -/
def findYear : List Char → Option Int
  | [] => none
  | c :: rest =>
    match take4 (c :: rest) with
    | some (y, _) => some y
    | none => findYear rest

/-- `ResolvedDate` with unknown confidence. -/
def unknownRD (orig : String) : ResolvedDate :=
  ⟨none, orig, false, none, none, "unknown"⟩

/-- `TimeResolver.resolve`. -/
def resolve : DateInput → ResolvedDate
  | .null => unknownRD ""
  | .int n => ⟨some n, toString n, false, none, none, "exact"⟩
  | .str s =>
    let t := pyStrip s
    let text := String.mk t
    if t.isEmpty then unknownRD ""
    else if matchUnknown t then unknownRD text
    else
      match matchExact t with
      | some y => ⟨some y, text, false, none, none, "exact"⟩
      | none =>
        match matchEuro t with
        | some y => ⟨some y, text, false, none, none, "exact"⟩
        | none =>
          match matchApprox (t.map lowerChar) with
          | some y => ⟨some y, text, true, none, none, "approximate"⟩
          | none =>
            match matchRange t with
            | some (a, b) => ⟨some ((a + b) / 2), text, true, some a, some b, "range"⟩
            | none =>
              match findYear t with
              | some y =>
                if 1000 ≤ y ∧ y ≤ 2100 then ⟨some y, text, true, none, none, "approximate"⟩
                else unknownRD text
              | none => unknownRD text

/-- `TimeResolver.resolve_year` / module-level `resolve_year`. -/
def resolve_year (d : DateInput) : Option Int := (resolve d).year

/-! ## Consistency validators (validators.py) -/

/-- Enum `ValidationLevel`. -/
inductive ValidationLevel where
  | ERROR
  | WARNING
  | SKIPPED
deriving DecidableEq, Repr

/-- Dataclass `ValidationResult` (the presentational `message` field is
not modelled; `code` identifies the rule). -/
structure ValidationResult where
  valid : Bool
  level : ValidationLevel
  code : String
deriving DecidableEq, Repr

/-- Class constant `MIN_MARRIAGE_AGE`. -/
def MIN_MARRIAGE_AGE : Int := 14
/-- Class constant `MIN_PARENT_AGE`. -/
def MIN_PARENT_AGE : Int := 10
/-- Class constant `MAX_MOTHER_AGE`. -/
def MAX_MOTHER_AGE : Int := 60
/-- Class constant `MAX_FATHER_POSTHUMOUS`. -/
def MAX_FATHER_POSTHUMOUS : Int := 1
/-- Class constant `MAX_HUMAN_AGE`. -/
def MAX_HUMAN_AGE : Int := 130

/-- `FamilyValidator`; `CURRENT_YEAR` is `datetime.now().year` at class
definition time, modelled as a field. -/
structure FamilyValidator where
  strict_mode : Bool := true
  CURRENT_YEAR : Int
deriving DecidableEq, Repr

/-- `FamilyValidator.validate_birth_death` (rules T1, Z3). -/
def validate_birth_death (v : FamilyValidator) (birth_year death_year : DateInput) :
    List ValidationResult :=
  match resolve_year birth_year, resolve_year death_year with
  | some birth, some death =>
    (if death < birth then [⟨false, .ERROR, "T1_DEATH_BEFORE_BIRTH"⟩] else []) ++
    (if death - birth > MAX_HUMAN_AGE then [⟨true, .WARNING, "Z3_UNREALISTIC_AGE"⟩] else [])
  | some birth, none =>
    if v.CURRENT_YEAR - birth > MAX_HUMAN_AGE then [⟨true, .WARNING, "Z3_IMMORTAL"⟩] else []
  | none, _ => []

/-- `FamilyValidator.validate_parent_child_dates` (rules T2-T4, B1, B2). -/
def validate_parent_child_dates (_v : FamilyValidator)
    (parent_birth parent_death child_birth : DateInput)
    (parent_gender : Option String) : List ValidationResult :=
  match resolve_year parent_birth, resolve_year child_birth with
  | some p_birth, some c_birth =>
    let parent_age_at_birth := c_birth - p_birth
    if parent_age_at_birth ≤ 0 then [⟨false, .ERROR, "T2_PARENT_YOUNGER"⟩]
    else
      (if parent_age_at_birth < MIN_PARENT_AGE then
        [⟨false, .ERROR, "B1_PARENT_TOO_YOUNG"⟩] else []) ++
      (if parent_gender = some "F" ∧ parent_age_at_birth > MAX_MOTHER_AGE then
        [⟨true, .WARNING, "B2_MOTHER_TOO_OLD"⟩] else []) ++
      (match resolve_year parent_death with
       | some p_death =>
         let years_after_death := c_birth - p_death
         if parent_gender = some "F" ∧ years_after_death > 0 then
           [⟨false, .ERROR, "T3_MOTHER_GHOST"⟩]
         else if parent_gender = some "M" ∧ years_after_death > MAX_FATHER_POSTHUMOUS then
           [⟨true, .WARNING, "T4_FATHER_GHOST"⟩]
         else []
       | none => [])
  | _, _ => [⟨true, .SKIPPED, "T_SKIPPED"⟩]

/-- `FamilyValidator.validate_marriage_dates` (rules T5, T6, Z1). -/
def validate_marriage_dates (_v : FamilyValidator)
    (person_birth person_death marriage_year divorce_year : DateInput) :
    List ValidationResult :=
  match resolve_year marriage_year with
  | none => []
  | some marriage =>
    (match resolve_year person_birth with
     | some birth =>
       let age_at_marriage := marriage - birth
       if age_at_marriage < MIN_MARRIAGE_AGE then
         (if age_at_marriage < 10 then [⟨false, .ERROR, "T5_CHILD_MARRIAGE"⟩]
          else [⟨true, .WARNING, "T5_CHILD_MARRIAGE"⟩])
       else []
     | none => []) ++
    (match resolve_year divorce_year with
     | some divorce => if divorce < marriage then
         [⟨false, .ERROR, "T6_DIVORCE_BEFORE_MARRIAGE"⟩] else []
     | none => []) ++
    (match resolve_year person_death with
     | some death => if marriage > death then
         [⟨false, .ERROR, "Z1_MARRIAGE_AFTER_DEATH"⟩] else []
     | none => [])

/-- A result list contains an error-level entry. -/
def hasError (rs : List ValidationResult) : Bool :=
  rs.any (fun r => r.level = ValidationLevel.ERROR)

/-- A result list contains an explicit skipped-level entry. -/
def hasSkipped (rs : List ValidationResult) : Bool :=
  rs.any (fun r => r.level = ValidationLevel.SKIPPED)

/-! ## Graph store state (neo4j_db.py)

The property graph is modelled explicitly: typed node lists and typed
edge lists.  Timestamps (`datetime()`) are modelled as a `now : Nat`
argument to the mutating operations.  The legacy node properties
`user_id` / `owner_id` on `Person` (the pre-`OWNS` schema the code still
falls back to) are optional fields. -/

/-- `User` node. -/
structure User where
  id : String
  public_key : Option String := none
deriving DecidableEq, Repr

/-- `Person` node property bag. -/
structure Person where
  id : String
  name_blob : Option String := none
  birth_date_blob : Option String := none
  death_date_blob : Option String := none
  birth_place_blob : Option String := none
  death_place_blob : Option String := none
  private_notes_blob : Option String := none
  shared_notes_blob : Option String := none
  gender : Option String := none
  is_root : Bool := false
  birth_year_approx : Option Int := none
  death_year_approx : Option Int := none
  is_deleted : Bool := false
  deleted_at : Option Nat := none
  ghost_name : Option String := none
  created_at : Option Nat := none
  updated_at : Option Nat := none
  user_id : Option String := none
  owner_id : Option String := none
deriving DecidableEq, Repr

/-- Property bag of a family edge. -/
structure RelProps where
  status : Option String := none
  marriage_order : Option Int := none
  marriage_type : Option String := none
  marriage_year : Option Int := none
  divorce_year : Option Int := none
  type : Option String := none
  is_biological : Option Bool := none
  marriage_date : Option Int := none
  divorce_date : Option Int := none
  is_adopted : Option Bool := none
  created_at : Option Nat := none
  updated_at : Option Nat := none
deriving DecidableEq, Repr

/-- A directed family edge between two `Person` nodes. -/
structure Rel where
  src : String
  dst : String
  rtype : String
  props : RelProps
deriving DecidableEq, Repr

/-- `[:OWNS]` edge from a `User` to a `Person`. -/
structure OwnsEdge where
  user_id : String
  person_id : String
deriving DecidableEq, Repr

/-- `[:SHARED_WITH]` edge from a `User` to a `Person`. -/
structure SharedEdge where
  user_id : String
  person_id : String
  guest_note_blob : Option String := none
deriving DecidableEq, Repr

/-- `Invite` node (linked to its owner by `CREATED_INVITE`). -/
structure Invite where
  id : String
  owner_id : String
  status : String
  created_at : Option Nat := none
  expires_at : Option Nat := none
  recipient_id : Option String := none
  accepted_at : Option Nat := none
  completed_at : Option Nat := none
deriving DecidableEq, Repr

/-- The whole graph. -/
structure GraphState where
  users : List User
  persons : List Person
  owns : List OwnsEdge
  shared_with : List SharedEdge
  rels : List Rel
  invites : List Invite
deriving DecidableEq, Repr

/-- `MATCH (u:User {id: $user_id})`. -/
def findUser (st : GraphState) (uid : String) : Option User :=
  st.users.find? (fun u => u.id = uid)

/-- `MATCH (p:Person {id: $person_id})`. -/
def findPerson (st : GraphState) (pid : String) : Option Person :=
  st.persons.find? (fun p => p.id = pid)

/-- `(u)-[:OWNS]->(p)` exists. -/
def ownsEdge (st : GraphState) (uid pid : String) : Bool :=
  st.owns.any (fun o => o.user_id = uid ∧ o.person_id = pid)

/-- `(u)-[:SHARED_WITH]->(p)` exists. -/
def sharedEdge (st : GraphState) (uid pid : String) : Bool :=
  st.shared_with.any (fun s1 => s1.user_id = uid ∧ s1.person_id = pid)

/-! ## Person CRUD -/

/-- `Neo4jDB.create_person`.  First tries `MATCH (u:User) CREATE (p) CREATE
(u)-[:OWNS]->(p)`; when the user node does not exist it falls back to
creating the `Person` alone with a `user_id` property and no `OWNS` edge.
Returns the new state, the created node, and the convenience `owner_id`
key added to the returned dict in the primary branch. -/
def create_person (st : GraphState) (person_id user_id : String)
    (name_blob birth_date_blob death_date_blob birth_place_blob death_place_blob
     private_notes_blob shared_notes_blob : Option String)
    (gender : Option String) (is_root : Bool)
    (birth_year_approx death_year_approx : Option Int)
    (now : Nat) : GraphState × Option (Person × Option String) :=
  let base : Person :=
    { id := person_id, name_blob := name_blob, birth_date_blob := birth_date_blob,
      death_date_blob := death_date_blob, birth_place_blob := birth_place_blob,
      death_place_blob := death_place_blob, private_notes_blob := private_notes_blob,
      shared_notes_blob := shared_notes_blob, gender := gender, is_root := is_root,
      birth_year_approx := birth_year_approx, death_year_approx := death_year_approx,
      is_deleted := false, created_at := some now }
  match findUser st user_id with
  | some _ =>
    ({ st with persons := st.persons ++ [base],
               owns := st.owns ++ [⟨user_id, person_id⟩] },
     some (base, some user_id))
  | none =>
    let p := { base with user_id := some user_id }
    ({ st with persons := st.persons ++ [p] }, some (p, none))

/-- The record returned by `Neo4jDB.get_person`: the node dict plus the
`is_owner` flag and the optional `owner_id` key. -/
structure PersonView where
  person : Person
  is_owner : Bool
  owner_id : Option String
deriving DecidableEq, Repr

/-- `Neo4jDB.get_person`: visible to the owner (`OWNS`) or to a guest
(`SHARED_WITH`); otherwise a fallback match on the legacy `user_id` /
`owner_id` node properties.  The node dict is returned verbatim in both
branches. -/
def get_person (st : GraphState) (person_id user_id : String) : Option PersonView :=
  let ownerOf : Option OwnsEdge := st.owns.find? (fun o => o.person_id = person_id)
  let primary : Option PersonView :=
    match findUser st user_id, findPerson st person_id with
    | some _, some p =>
      if ownsEdge st user_id person_id ∨ sharedEdge st user_id person_id then
        some { person := p, is_owner := ownsEdge st user_id person_id,
               owner_id := ownerOf.map OwnsEdge.user_id }
      else none
    | _, _ => none
  match primary with
  | some v => some v
  | none =>
    match st.persons.find?
        (fun p => p.id = person_id ∧ (p.user_id = some user_id ∨ p.owner_id = some user_id)) with
    | some p => some ⟨p, true, none⟩
    | none => none

/-! ## Ghost-node lifecycle -/

/-- Nodes of the property graph, for the untyped `shortestPath` query. -/
inductive GNode where
  | personN (id : String)
  | userN (id : String)
  | inviteN (id : String)
deriving DecidableEq, Repr

/-- All nodes of the graph. -/
def gnodes (st : GraphState) : List GNode :=
  st.persons.map (fun p => .personN p.id) ++ st.users.map (fun u => .userN u.id) ++
    st.invites.map (fun i => .inviteN i.id)

/-- Undirected adjacency over every relationship type (family edges,
`OWNS`, `SHARED_WITH`, `CREATED_INVITE`), as traversed by the
`shortestPath((ghost)-[*]-(leaf))` pattern. -/
def adjacent (st : GraphState) (a b : GNode) : Bool :=
  match a, b with
  | .personN x, .personN y =>
    st.rels.any (fun r => (r.src = x ∧ r.dst = y) ∨ (r.src = y ∧ r.dst = x))
  | .userN u, .personN p =>
    st.owns.any (fun o => o.user_id = u ∧ o.person_id = p) ∨
      st.shared_with.any (fun s1 => s1.user_id = u ∧ s1.person_id = p)
  | .personN p, .userN u =>
    st.owns.any (fun o => o.user_id = u ∧ o.person_id = p) ∨
      st.shared_with.any (fun s1 => s1.user_id = u ∧ s1.person_id = p)
  | .userN u, .inviteN i =>
    st.invites.any (fun iv => iv.id = i ∧ iv.owner_id = u)
  | .inviteN i, .userN u =>
    st.invites.any (fun iv => iv.id = i ∧ iv.owner_id = u)
  | _, _ => false

/-- Layered breadth-first search with fuel, computing
`length(shortestPath(...))`. -/
def bfsAux (st : GraphState) (target : GNode) :
    Nat → List GNode → List GNode → Nat → Option Nat
  | 0, frontier, _, d => if frontier.contains target then some d else none
  | fuel + 1, frontier, visited, d =>
    if frontier.contains target then some d
    else
      let next := (gnodes st).filter
        (fun n => ¬ visited.contains n ∧ frontier.any (fun f => adjacent st f n))
      if next.isEmpty then none
      else bfsAux st target fuel next (visited ++ next) (d + 1)

/-- Length of the shortest undirected path between two nodes, if any. -/
def bfsDist (st : GraphState) (source target : GNode) : Option Nat :=
  bfsAux st target (gnodes st).length [source] [source] 0

/-- `Neo4jDB._generate_ghost_name`: pick the first leaf person of the
caller (legacy `user_id` property, no incoming `PARENT_OF`), measure the
shortest-path distance from the ghost, and map distance and gender to a
generational label; generic fallback otherwise. -/
def generate_ghost_name (st : GraphState) (person_id user_id : String) : String :=
  let leafOpt := st.persons.find? (fun leaf =>
    leaf.user_id = some user_id ∧
      ¬ st.rels.any (fun r => r.rtype = "PARENT_OF" ∧ r.dst = leaf.id))
  let record : Option (Option String × Nat) :=
    match leafOpt, findPerson st person_id with
    | some leaf, some ghost =>
      match bfsDist st (.personN ghost.id) (.personN leaf.id) with
      | some dist => some (ghost.gender, dist)
      | none => none
    | _, _ => none
  match record with
  | none =>
    (match findPerson st person_id with
     | some p => if p.gender = some "M" then "родич" else "родичка"
     | none => "родич")
  | some (gender, distance) =>
    if distance = 1 then (if gender = some "M" then "дід" else "баба")
    else if distance = 2 then (if gender = some "M" then "прадід" else "прабаба")
    else if distance = 3 then
      (if gender = some "M" then "двоюрідний дід" else "двоюрідна баба")
    else
      let generation : Int := (distance : Int) - 1
      if gender = some "M" then "родич " ++ toString generation ++ " коліна"
      else "родичка " ++ toString generation ++ " коліна"

/-- Number of outgoing `PARENT_OF` edges of a person (recorded children). -/
def descendantsCount (st : GraphState) (pid : String) : Nat :=
  (st.rels.filter (fun r => r.rtype = "PARENT_OF" ∧ r.src = pid)).length

/-- `SET p.is_deleted = true, p.deleted_at = datetime(), p.ghost_name = ...`. -/
def ghostPerson (st : GraphState) (pid : String) (gname : String) (now : Nat) : GraphState :=
  { st with persons := st.persons.map (fun p =>
      if p.id = pid then { p with is_deleted := true, deleted_at := some now,
                                  ghost_name := some gname }
      else p) }

/-- `DETACH DELETE p`: remove the node and every edge touching it. -/
def detachDelete (st : GraphState) (pid : String) : GraphState :=
  { st with
    persons := st.persons.filter (fun p => p.id ≠ pid),
    rels := st.rels.filter (fun r => r.src ≠ pid ∧ r.dst ≠ pid),
    owns := st.owns.filter (fun o => o.person_id ≠ pid),
    shared_with := st.shared_with.filter (fun s1 => s1.person_id ≠ pid) }

/-- Result dict of `Neo4jDB.delete_person` (`action`, `success`; the
presentational `message` is not modelled). -/
structure DeleteResult where
  action : String
  success : Bool
deriving DecidableEq, Repr

/-- `Neo4jDB.delete_person`: owner (via `OWNS`) ghosts when descendants
exist and hard-deletes otherwise; a guest only loses their `SHARED_WITH`
edge; then the two legacy fallbacks on the `owner_id` / `user_id` node
properties; otherwise not found. -/
def delete_person (st : GraphState) (person_id user_id : String) (now : Nat) :
    GraphState × DeleteResult :=
  if (findUser st user_id).isSome ∧ (findPerson st person_id).isSome ∧
      ownsEdge st user_id person_id then
    if descendantsCount st person_id > 0 then
      (ghostPerson st person_id (generate_ghost_name st person_id user_id) now,
       ⟨"ghosted", true⟩)
    else (detachDelete st person_id, ⟨"deleted", true⟩)
  else if (findUser st user_id).isSome ∧ (findPerson st person_id).isSome ∧
      sharedEdge st user_id person_id then
    let kept := st.shared_with.filter
      (fun s1 => ¬ (s1.user_id = user_id ∧ s1.person_id = person_id))
    ({ st with shared_with := kept }, ⟨"unshared", true⟩)
  else if st.persons.any (fun p => p.id = person_id ∧ p.owner_id = some user_id) then
    if descendantsCount st person_id > 0 then
      (ghostPerson st person_id (generate_ghost_name st person_id user_id) now,
       ⟨"ghosted", true⟩)
    else (detachDelete st person_id, ⟨"deleted", true⟩)
  else if st.persons.any (fun p => p.id = person_id ∧ p.user_id = some user_id) then
    if descendantsCount st person_id > 0 then
      (ghostPerson st person_id (generate_ghost_name st person_id user_id) now,
       ⟨"ghosted", true⟩)
    else (detachDelete st person_id, ⟨"deleted", true⟩)
  else (st, ⟨"not_found", false⟩)

/-! ## Family edges -/

/-- A relationship row matches `(a)-[:t]->(b)`. -/
def relMatches (a b t : String) (r : Rel) : Bool :=
  r.src = a ∧ r.dst = b ∧ r.rtype = t

/-- `MERGE (a)-[:t]->(b)` with no properties in the pattern: create the
edge only when no edge of that type exists in that direction. -/
def mergeRel (rels : List Rel) (a b t : String) : List Rel :=
  if rels.any (relMatches a b t) then rels else rels ++ [⟨a, b, t, {}⟩]

/-- `MERGE (a)-[:SIBLING {type: $sibling_type}]->(b)`: the property is
part of the pattern, so a differently-typed sibling edge does not match
and a second edge is created alongside it. -/
def mergeSibling (rels : List Rel) (a b stype : String) : List Rel :=
  if rels.any (fun r => relMatches a b "SIBLING" r ∧ r.props.type = some stype) then rels
  else rels ++ [⟨a, b, "SIBLING", { type := some stype }⟩]

/-- `Neo4jDB.add_parent`: `MERGE (parent)-[:PARENT_OF {is_biological}]->(child)`
and the inverse `CHILD_OF`, matching both persons by the legacy `user_id`
property. -/
def add_parent (st : GraphState) (child_id parent_id user_id : String)
    (is_biological : Bool) : GraphState × Bool :=
  if st.persons.any (fun p => p.id = parent_id ∧ p.user_id = some user_id) ∧
      st.persons.any (fun p => p.id = child_id ∧ p.user_id = some user_id) then
    let r1 :=
      if st.rels.any (fun r => relMatches parent_id child_id "PARENT_OF" r ∧
          r.props.is_biological = some is_biological) then st.rels
      else st.rels ++ [⟨parent_id, child_id, "PARENT_OF", { is_biological := some is_biological }⟩]
    let r2 :=
      if r1.any (fun r => relMatches child_id parent_id "CHILD_OF" r ∧
          r.props.is_biological = some is_biological) then r1
      else r1 ++ [⟨child_id, parent_id, "CHILD_OF", { is_biological := some is_biological }⟩]
    ({ st with rels := r2 }, true)
  else (st, false)

/-- The `SET r1... r2...` clause of `add_spouse`: identical status,
ordinal and type on both directed `SPOUSE` edges of the pair. -/
def setSpouseMeta (p1 p2 status mtype : String) (mo : Int) (r : Rel) : Rel :=
  if relMatches p1 p2 "SPOUSE" r ∨ relMatches p2 p1 "SPOUSE" r then
    let np := { r.props with
      status := some status,
      marriage_order := some mo,
      marriage_type := some mtype }
    { r with props := np }
  else r

/-- `MATCH (p1)-[r:SPOUSE]-(p2) SET r.marriage_year = ...` (undirected). -/
def setMarriageYear (p1 p2 : String) (y : Int) (r : Rel) : Rel :=
  if r.rtype = "SPOUSE" ∧ ((r.src = p1 ∧ r.dst = p2) ∨ (r.src = p2 ∧ r.dst = p1)) then
    { r with props := { r.props with marriage_year := some y } }
  else r

/-- `MATCH (p1)-[r:SPOUSE]-(p2) SET r.divorce_year = ...` (undirected). -/
def setDivorceYear (p1 p2 : String) (y : Int) (r : Rel) : Rel :=
  if r.rtype = "SPOUSE" ∧ ((r.src = p1 ∧ r.dst = p2) ∨ (r.src = p2 ∧ r.dst = p1)) then
    { r with props := { r.props with divorce_year := some y } }
  else r

/-- The `OWNS`-based authorization of `add_spouse`: the user node owns
both person nodes. -/
def spouseAuthOwns (st : GraphState) (p1 p2 uid : String) : Bool :=
  (findUser st uid).isSome && (findPerson st p1).isSome && (findPerson st p2).isSome &&
    ownsEdge st uid p1 && ownsEdge st uid p2

/-- The legacy-fallback authorization of `add_spouse`: both persons
carry the caller in their `owner_id` or `user_id` node property. -/
def spouseAuthLegacy (st : GraphState) (p1 p2 uid : String) : Bool :=
  st.persons.any (fun p => p.id = p1 ∧ (p.owner_id = some uid ∨ p.user_id = some uid)) &&
    st.persons.any (fun p => p.id = p2 ∧ (p.owner_id = some uid ∨ p.user_id = some uid))

/-- The edge-writing part of `add_spouse`: `MERGE` both directed
`SPOUSE` edges, `SET` status / ordinal / type on both, then set the
optional marriage and divorce years on every `SPOUSE` edge between the
pair (undirected match). -/
def spouseChain (rels : List Rel) (p1 p2 status mtype : String) (mo : Int)
    (marriage_year divorce_year : Option Int) : List Rel :=
  let merged := mergeRel (mergeRel rels p1 p2 "SPOUSE") p2 p1 "SPOUSE"
  let withMeta := merged.map (setSpouseMeta p1 p2 status mtype mo)
  let withYear :=
    match marriage_year with
    | some y => withMeta.map (setMarriageYear p1 p2 y)
    | none => withMeta
  match divorce_year with
  | some y => withYear.map (setDivorceYear p1 p2 y)
  | none => withYear

/-- `Neo4jDB.add_spouse`: authorizes via `OWNS` with a legacy fallback on
the `owner_id` / `user_id` node properties, then runs the symmetric-pair
edge writes of `spouseChain`. -/
def add_spouse (st : GraphState) (person1_id person2_id user_id : String)
    (marriage_year divorce_year : Option Int) (status : String)
    (marriage_type : Option String) (marriage_order : Int) : GraphState × Bool :=
  let mtype := marriage_type.getD "civil"
  if spouseAuthOwns st person1_id person2_id user_id ||
      spouseAuthLegacy st person1_id person2_id user_id then
    let rels2 := spouseChain st.rels person1_id person2_id status mtype
      marriage_order marriage_year divorce_year
    ({ st with rels := rels2 }, true)
  else (st, false)

/-- The authorization of `add_sibling`: both persons matched by the
legacy `user_id` node property. -/
def siblingAuth (st : GraphState) (p1 p2 uid : String) : Bool :=
  st.persons.any (fun p => p.id = p1 ∧ p.user_id = some uid) &&
    st.persons.any (fun p => p.id = p2 ∧ p.user_id = some uid)

/-- `Neo4jDB.add_sibling`: matches both persons by the legacy `user_id`
property and `MERGE`s both directed `SIBLING {type}` edges. -/
def add_sibling (st : GraphState) (person1_id person2_id user_id : String)
    (sibling_type : String) : GraphState × Bool :=
  if siblingAuth st person1_id person2_id user_id then
    let r2 := mergeSibling (mergeSibling st.rels person1_id person2_id sibling_type)
      person2_id person1_id sibling_type
    ({ st with rels := r2 }, true)
  else (st, false)

/-- The metadata keys `Neo4jDB.create_relationship` copies onto the edge
(all other keys of the dict are filtered out by its whitelist). -/
structure RelMetadata where
  marriage_date : Option Int := none
  divorce_date : Option Int := none
  is_adopted : Option Bool := none
  type : Option String := none
deriving DecidableEq, Repr

/-- ASCII upper-casing (`str.upper()`). -/
def upperChar (c : Char) : Char :=
  if 'a' ≤ c ∧ c ≤ 'z' then Char.ofNat (c.toNat - 32) else c

/-- `str.upper()`. -/
def pyUpper (s : String) : String := String.mk (s.data.map upperChar)

/-- The `relation_map` normalization table of `create_relationship`. -/
def relation_map (relation_type : String) : String :=
  if relation_type = "PARENT" then "PARENT_OF"
  else if relation_type = "CHILD" then "CHILD_OF"
  else if relation_type = "SPOUSE" then "SPOUSE"
  else if relation_type = "parent" then "PARENT_OF"
  else if relation_type = "child" then "CHILD_OF"
  else if relation_type = "spouse" then "SPOUSE"
  else if relation_type = "sibling" then "SIBLING"
  else pyUpper relation_type

/-- The `SET` clause of `create_relationship`: timestamps plus the
whitelisted metadata keys present in the dict. -/
def applyMeta (m : Option RelMetadata) (now : Nat) (p : RelProps) : RelProps :=
  let p1 := { p with created_at := some now, updated_at := some now }
  match m with
  | none => p1
  | some md =>
    { p1 with
      marriage_date := match md.marriage_date with | some x => some x | none => p1.marriage_date,
      divorce_date := match md.divorce_date with | some x => some x | none => p1.divorce_date,
      is_adopted := match md.is_adopted with | some x => some x | none => p1.is_adopted,
      type := match md.type with | some x => some x | none => p1.type }

/-- `Neo4jDB.create_relationship`: normalizes the relation type, `MERGE`s
a single directed edge `(from)-[r:rel_type]->(to)` and `SET`s timestamps
plus whitelisted metadata on it.  No inverse or symmetric edge is
created by this operation. -/
def create_relationship (st : GraphState) (from_id to_id : String)
    (relation_type : String) (metadata : Option RelMetadata) (now : Nat) :
    GraphState × Bool :=
  let rel_type := relation_map relation_type
  if (findPerson st from_id).isSome ∧ (findPerson st to_id).isSome then
    let rels1 := mergeRel st.rels from_id to_id rel_type
    let rels2 := rels1.map (fun r =>
      if relMatches from_id to_id rel_type r then
        { r with props := applyMeta metadata now r.props }
      else r)
    ({ st with rels := rels2 }, true)
  else (st, false)

/-! ## Sharing handshake -/

/-- `Neo4jDB.create_invite`: requires the owner user; creates the
`Invite` node with status `pending` and the `CREATED_INVITE` edge. -/
def create_invite (st : GraphState) (invite_id owner_id : String)
    (expires_at : Option Nat) (now : Nat) : GraphState × Option Invite :=
  match findUser st owner_id with
  | some _ =>
    let i : Invite := { id := invite_id, owner_id := owner_id, status := "pending",
                        created_at := some now, expires_at := expires_at }
    ({ st with invites := st.invites ++ [i] }, some i)
  | none => (st, none)

/-- The record returned by `Neo4jDB.accept_invite`. -/
structure AcceptResult where
  invite : Invite
  owner_id : String
  owner_public_key : Option String
  recipient_public_key : Option String
deriving DecidableEq, Repr

/-- `Neo4jDB.accept_invite`: matches the invite by id and status
`pending` only (the stored `expires_at` is never consulted), records the
recipient and flips the status to `accepted`; the row is returned only
when the owner user also exists, but the `SET` has already been applied
by then. -/
def accept_invite (st : GraphState) (invite_id recipient_id : String) (now : Nat) :
    GraphState × Option AcceptResult :=
  match st.invites.find? (fun i => i.id = invite_id ∧ i.status = "pending"),
        findUser st recipient_id with
  | some i, some recipient =>
    let i2 := { i with recipient_id := some recipient_id, status := "accepted",
                       accepted_at := some now }
    let invites2 := st.invites.map (fun j =>
      if j.id = invite_id ∧ j.status = "pending" then
        { j with recipient_id := some recipient_id, status := "accepted",
                 accepted_at := some now }
      else j)
    let st2 := { st with invites := invites2 }
    (match findUser st i.owner_id with
     | some owner => (st2, some ⟨i2, owner.id, owner.public_key, recipient.public_key⟩)
     | none => (st2, none))
  | _, _ => (st, none)

/-! ## Derived notions used in the claim statements -/

/-- Feed a nullable year back into `resolve` (how callers re-resolve
`result.year`). -/
def reinput : Option Int → DateInput
  | some n => .int n
  | none => .null

/-- Some value-producing textual form of the resolver matches a string:
exact, european, approximate, range, or an embedded in-bounds 4-digit
year.  Inputs matching none of these resolve to `unknown`. -/
def valueFormMatch (s : String) : Bool :=
  let t := pyStrip s
  (matchExact t).isSome || (matchEuro t).isSome ||
    (matchApprox (t.map lowerChar)).isSome || (matchRange t).isSome ||
    (match findYear t with
     | some y => decide (1000 ≤ y ∧ y ≤ 2100)
     | none => false)

/-- Number of directed edges `(a)-[:t]->(b)`. -/
def countRel (rels : List Rel) (a b t : String) : Nat :=
  rels.countP (fun r => relMatches a b t r)

/-- A fixed validator instance (process started in year 2025). -/
def v2025 : FamilyValidator := { CURRENT_YEAR := 2025 }

end Rodovid

namespace Rodovid

/-! ## Claims about the date resolver -/

/-- C9: `resolve` is total — every input (integer, arbitrary string, or
null) yields a `ResolvedDate` with one of the four confidence values —
and every string matching none of the recognized value-producing forms
yields confidence `unknown` with a null year. -/
theorem C9_resolve_total_unknown :
    (∀ d : DateInput, (resolve d).confidence = "exact" ∨
      (resolve d).confidence = "approximate" ∨ (resolve d).confidence = "range" ∨
      (resolve d).confidence = "unknown") ∧
    (∀ s : String, valueFormMatch s = false →
      (resolve (.str s)).year = none ∧ (resolve (.str s)).confidence = "unknown") := by
  constructor
  · intro d
    cases d with
    | null => right; right; right; rfl
    | int n => left; rfl
    | str s =>
      simp only [resolve]
      split
      · right; right; right; rfl
      · split
        · right; right; right; rfl
        · split
          · left; rfl
          · split
            · left; rfl
            · split
              · right; left; rfl
              · split
                · right; right; left; rfl
                · split
                  · split
                    · right; left; rfl
                    · right; right; right; rfl
                  · right; right; right; rfl
  · intro s h
    simp only [valueFormMatch, Bool.or_eq_false_iff] at h
    obtain ⟨⟨⟨⟨h1, h2⟩, h3⟩, h4⟩, h5⟩ := h
    simp only [resolve]
    split
    · exact ⟨rfl, rfl⟩
    · split
      · exact ⟨rfl, rfl⟩
      · split
        · rename_i y hy
          rw [hy] at h1
          simp at h1
        · split
          · rename_i y hy
            rw [hy] at h2
            simp at h2
          · split
            · rename_i y hy
              rw [hy] at h3
              simp at h3
            · split
              · rename_i a b hy
                rw [hy] at h4
                simp at h4
              · split
                · rename_i y hy
                  rw [hy] at h5
                  simp at h5
                  split
                  · rename_i hb
                    exact absurd (h5 hb.1) (not_lt.mpr hb.2)
                  · exact ⟨rfl, rfl⟩
                · exact ⟨rfl, rfl⟩

/-- C9 witness: a malformed string resolves to unknown with a null year. -/
theorem C9_witness :
    (resolve (.str "hello world")).year = none ∧
      (resolve (.str "hello world")).confidence = "unknown" :=
  C9_resolve_total_unknown.2 "hello world" (by decide)

/-- C10 counterexample: re-resolving the year of `"~1900"` does not
return the same `ResolvedDate` (confidence and original differ), so
`resolve(resolve(x).year) == resolve(x)` fails for an input that
resolves non-null. -/
theorem C10_not_idempotent_full :
    (resolve (.str "~1900")).year = some 1900 ∧
      resolve (reinput (resolve (.str "~1900")).year) ≠ resolve (.str "~1900") := by
  constructor
  · decide
  · decide

/-- C10 (amended): re-resolving a non-null resolved year preserves the
`year` field, and for already-numeric inputs the full resolution is
reproduced exactly. -/
theorem C10_idempotent_on_year :
    (∀ (x : DateInput) (y : Int), (resolve x).year = some y →
      (resolve (reinput (resolve x).year)).year = (resolve x).year) ∧
    (∀ n : Int, resolve (reinput (resolve (.int n)).year) = resolve (.int n)) := by
  constructor
  · intro x y h
    rw [h]
    rfl
  · intro n
    rfl

/-- C10 witness: the amended idempotence evaluated at `"1990"`. -/
theorem C10_witness :
    (resolve (reinput (resolve (.str "1990")).year)).year = (resolve (.str "1990")).year :=
  C10_idempotent_on_year.1 (.str "1990") 1990 (by decide)

/-! ## Claims about the validators -/

/-- C6 counterexample: with an unknown birth year,
`validate_birth_death` returns the empty list — no skipped-level result
is reported — and so does `validate_marriage_dates` with an unknown
marriage year. -/
theorem C6_silent_skip :
    validate_birth_death v2025 DateInput.null (DateInput.int 1990) = [] ∧
      validate_marriage_dates v2025 (DateInput.int 1900) (DateInput.int 1950)
        DateInput.null DateInput.null = [] := by
  constructor
  · decide
  · decide

/-- C6 (amended): only `validate_parent_child_dates` reports an explicit
skipped-level result when its required year inputs are unknown;
`validate_birth_death` (unknown birth) and `validate_marriage_dates`
(unknown marriage year) return the empty result list, silently omitting
their rules (no error is produced either). -/
theorem C6_skip_reporting :
    (∀ (v : FamilyValidator) (pb pd cb : DateInput) (g : Option String),
      resolve_year pb = none ∨ resolve_year cb = none →
      validate_parent_child_dates v pb pd cb g =
        [⟨true, ValidationLevel.SKIPPED, "T_SKIPPED"⟩]) ∧
    (∀ (v : FamilyValidator) (b d : DateInput), resolve_year b = none →
      validate_birth_death v b d = []) ∧
    (∀ (v : FamilyValidator) (b de m dv : DateInput), resolve_year m = none →
      validate_marriage_dates v b de m dv = []) := by
  refine ⟨?_, ?_, ?_⟩
  · intro v pb pd cb g h
    rcases h with h | h
    · cases h2 : resolve_year cb <;> simp [validate_parent_child_dates, h, h2]
    · cases h2 : resolve_year pb <;> simp [validate_parent_child_dates, h, h2]
  · intro v b d h
    cases h2 : resolve_year d <;> simp [validate_birth_death, h, h2]
  · intro v b de m dv h
    simp [validate_marriage_dates, h]

/-- C6 witness: the amended skip behaviour at concrete unknown inputs. -/
theorem C6_witness :
    validate_parent_child_dates v2025 DateInput.null DateInput.null
        (DateInput.int 1950) none = [⟨true, ValidationLevel.SKIPPED, "T_SKIPPED"⟩] ∧
    validate_birth_death v2025 (DateInput.str "?") (DateInput.int 1990) = [] ∧
    validate_marriage_dates v2025 (DateInput.int 1900) DateInput.null
        (DateInput.str "unknown") DateInput.null = [] :=
  ⟨C6_skip_reporting.1 v2025 DateInput.null DateInput.null (DateInput.int 1950) none
      (Or.inl (by decide)),
   C6_skip_reporting.2.1 v2025 (DateInput.str "?") (DateInput.int 1990) (by decide),
   C6_skip_reporting.2.2 v2025 (DateInput.int 1900) DateInput.null
      (DateInput.str "unknown") DateInput.null (by decide)⟩

/-- C7: when both dates resolve to non-null years, `validate_birth_death`
contains an error-level result iff the death year precedes the birth
year (warnings do not count). -/
theorem C7_death_before_birth_iff (v : FamilyValidator) (bi di : DateInput) (b d : Int)
    (hb : resolve_year bi = some b) (hd : resolve_year di = some d) :
    hasError (validate_birth_death v bi di) = true ↔ d < b := by
  simp only [validate_birth_death, hb, hd]
  by_cases h1 : d < b <;> by_cases h2 : d - b > MAX_HUMAN_AGE <;>
    simp [hasError, h1, h2]

/-- C7 witness: death 1980 before birth 1990 is an error; death 2000
after birth 1990 is not. -/
theorem C7_witness :
    (hasError (validate_birth_death v2025 (DateInput.int 1990) (DateInput.int 1980)) = true ↔
      (1980 : Int) < 1990) ∧
    (hasError (validate_birth_death v2025 (DateInput.int 1990) (DateInput.int 2000)) = true ↔
      (2000 : Int) < 1990) :=
  ⟨C7_death_before_birth_iff v2025 (DateInput.int 1990) (DateInput.int 1980) 1990 1980 rfl rfl,
   C7_death_before_birth_iff v2025 (DateInput.int 1990) (DateInput.int 2000) 1990 2000 rfl rfl⟩

/-- C8 counterexample: a mother who died in 1920 with a child born in
1940 yields an error-level result although the child-minus-parent age
difference (40) is neither `≤ 0` nor below `MIN_PARENT_AGE`, so the
claimed iff fails. -/
theorem C8_mother_ghost_counterexample :
    hasError (validate_parent_child_dates v2025 (DateInput.int 1900) (DateInput.int 1920)
        (DateInput.int 1940) (some "F")) = true ∧
      ¬(((1940 : Int) - 1900 ≤ 0) ∨ ((1940 : Int) - 1900 < MIN_PARENT_AGE)) := by
  constructor
  · decide
  · decide

/-- C8 (amended): with both birth years non-null,
`validate_parent_child_dates` contains an error-level result iff the age
difference is `≤ 0`, below `MIN_PARENT_AGE`, or the mother-ghost rule
fires (female parent, known death year earlier than the child's birth). -/
theorem C8_parent_child_error_iff (v : FamilyValidator) (pb pd cb : DateInput)
    (g : Option String) (pbv cbv : Int)
    (hp : resolve_year pb = some pbv) (hc : resolve_year cb = some cbv) :
    hasError (validate_parent_child_dates v pb pd cb g) = true ↔
      (cbv - pbv ≤ 0 ∨ cbv - pbv < MIN_PARENT_AGE ∨
        (g = some "F" ∧ ∃ pdv, resolve_year pd = some pdv ∧ pdv < cbv)) := by
  simp only [validate_parent_child_dates, hp, hc]
  cases hpd : resolve_year pd with
  | none =>
    by_cases hA : cbv - pbv ≤ 0
    · simp [hA, hasError]
    · by_cases hB : cbv - pbv < MIN_PARENT_AGE <;>
        by_cases hC : g = some "F" ∧ cbv - pbv > MAX_MOTHER_AGE <;>
        simp [hA, hB, hC, hasError]
  | some pdv =>
    by_cases hA : cbv - pbv ≤ 0
    · simp [hA, hasError]
    · by_cases hg : g = some "F"
      · by_cases hB : cbv - pbv < MIN_PARENT_AGE <;>
          by_cases hC : cbv - pbv > MAX_MOTHER_AGE <;>
          by_cases hD : cbv - pdv > 0 <;>
          simp [hA, hB, hC, hD, hg, hasError, sub_pos] <;> omega
      · by_cases hg2 : g = some "M"
        · by_cases hB : cbv - pbv < MIN_PARENT_AGE <;>
            by_cases hE : cbv - pdv > MAX_FATHER_POSTHUMOUS <;>
            simp [hA, hB, hE, hg, hg2, hasError, sub_pos]
        · by_cases hB : cbv - pbv < MIN_PARENT_AGE <;>
            simp [hA, hB, hg, hg2, hasError, sub_pos]

/-- C8 witness: the amended characterization at concrete inputs (a
mother-ghost error despite a healthy age difference, and a clean case). -/
theorem C8_witness :
    (hasError (validate_parent_child_dates v2025 (DateInput.int 1900) (DateInput.int 1920)
        (DateInput.int 1940) (some "F")) = true ↔
      ((1940 : Int) - 1900 ≤ 0 ∨ (1940 : Int) - 1900 < MIN_PARENT_AGE ∨
        (some "F" = some "F" ∧ ∃ pdv, resolve_year (DateInput.int 1920) = some pdv ∧
          pdv < 1940))) :=
  C8_parent_child_error_iff v2025 (DateInput.int 1900) (DateInput.int 1920)
    (DateInput.int 1940) (some "F") 1900 1940 rfl rfl

/-! ## Claims about the graph operations -/

/-- A found user carries the id it was looked up by. -/
theorem findUser_eq_id {st : GraphState} {uid : String} {u : User}
    (h : findUser st uid = some u) : u.id = uid := by
  unfold findUser at h
  have := List.find?_some h
  simpa using this

/-- Concrete users for the sharing scenarios. -/
def aliceU : User := { id := "alice", public_key := some "pk_alice" }

/-- Concrete recipient user. -/
def bobU : User := { id := "bob", public_key := some "pk_bob" }

/-- A person of alice with a private-notes blob set. -/
def notesPerson : Person :=
  { id := "p1", name_blob := some "ENC_person",
    private_notes_blob := some "ENC_alice_secret_notes" }

/-- State for the private-notes scenario: alice owns `p1`, bob holds a
`SHARED_WITH` edge to it. -/
def stC1 : GraphState :=
  { users := [aliceU, bobU], persons := [notesPerson],
    owns := [⟨"alice", "p1"⟩], shared_with := [⟨"bob", "p1", none⟩],
    rels := [], invites := [] }

/-- C1: `get_person` by the non-owner viewer bob returns the node dict
verbatim — including the non-null private-notes blob — although bob is
related to the person only by a `SHARED_WITH` edge.  (The repository's
own security test asserts the blob must be absent here.) -/
theorem C1_private_notes_leak :
    ∃ v, get_person stC1 "p1" "bob" = some v ∧ v.is_owner = false ∧
      v.person.private_notes_blob = some "ENC_alice_secret_notes" :=
  ⟨{ person := notesPerson, is_owner := false, owner_id := some "alice" },
   by decide, rfl, rfl⟩

/-- An invite whose expiry timestamp (10) is already in the past at the
time of acceptance (100). -/
def expiredInvite : Invite :=
  { id := "inv1", owner_id := "alice", status := "pending",
    created_at := some 0, expires_at := some 10 }

/-- State for the expired-invite scenario. -/
def stC2 : GraphState :=
  { users := [aliceU, bobU], persons := [], owns := [], shared_with := [],
    rels := [], invites := [expiredInvite] }

/-- C2 counterexample: accepting a pending invite whose expiry (10) lies
before the current time (100) succeeds and mutates the invite record to
`accepted`, instead of failing and leaving the record unchanged. -/
theorem C2_expired_invite_accepted :
    expiredInvite.expires_at = some 10 ∧ (10 : Nat) < 100 ∧
    ((accept_invite stC2 "inv1" "bob" 100).2).isSome = true ∧
    ((accept_invite stC2 "inv1" "bob" 100).1.invites.map Invite.status) = ["accepted"] := by
  refine ⟨rfl, by decide, ?_, ?_⟩
  · decide
  · decide

/-- C2 (amended): `accept_invite` succeeds iff a pending invite with the
given id exists and both the recipient and the invite's owner users
exist — the stored expiry timestamp is never consulted — and on success
it records the recipient, flips the status to `accepted`, and returns
the owner's and the recipient's public keys. -/
theorem C2_accept_invite_ignores_expiry (st : GraphState) (iid rid : String) (now : Nat) :
    (((accept_invite st iid rid now).2).isSome = true ↔
      (∃ i, st.invites.find? (fun i => i.id = iid ∧ i.status = "pending") = some i ∧
        (findUser st rid).isSome = true ∧ (findUser st i.owner_id).isSome = true)) ∧
    (∀ r, (accept_invite st iid rid now).2 = some r →
      r.invite.status = "accepted" ∧ r.invite.recipient_id = some rid ∧
      (∃ owner, findUser st r.owner_id = some owner ∧
        r.owner_public_key = owner.public_key) ∧
      (∃ recipient, findUser st rid = some recipient ∧
        r.recipient_public_key = recipient.public_key)) := by
  unfold accept_invite
  cases hI : st.invites.find? (fun i => i.id = iid ∧ i.status = "pending") with
  | none =>
    refine ⟨?_, ?_⟩
    · simp
    · intro r hr
      simp at hr
  | some i =>
    cases hR : findUser st rid with
    | none =>
      refine ⟨?_, ?_⟩
      · simp
      · intro r hr
        simp at hr
    | some recipient =>
      dsimp only
      cases hO : findUser st i.owner_id with
      | none =>
        refine ⟨?_, ?_⟩
        · constructor
          · intro h
            simp at h
          · rintro ⟨i2, hi2, _, hOwner⟩
            injection hi2 with h2
            subst h2
            rw [hO] at hOwner
            simp at hOwner
        · intro r hr
          simp at hr
      | some owner =>
        refine ⟨?_, ?_⟩
        · constructor
          · intro _
            refine ⟨i, rfl, by simp, ?_⟩
            rw [hO]
            rfl
          · intro _
            simp
        · intro r hr
          simp only [Option.some.injEq] at hr
          subst hr
          refine ⟨rfl, rfl, ?_, ?_⟩
          · refine ⟨owner, ?_, rfl⟩
            have hid : owner.id = i.owner_id := findUser_eq_id hO
            show findUser st owner.id = some owner
            rw [hid]
            exact hO
          · exact ⟨recipient, rfl, rfl⟩

/-- C2 amended-claim witness: the characterization applied to the
expired-invite state — acceptance succeeds although the invite is
expired. -/
theorem C2_amended_witness :
    ((accept_invite stC2 "inv1" "bob" 100).2).isSome = true :=
  (C2_accept_invite_ignores_expiry stC2 "inv1" "bob" 100).1.mpr
    ⟨expiredInvite, by decide, by decide, by decide⟩

/-- Empty graph: no users at all. -/
def stC3 : GraphState :=
  { users := [], persons := [], owns := [], shared_with := [], rels := [], invites := [] }

/-- C3 counterexample: creating a person for a non-existent owner does
not fail — the fallback branch creates the `Person` node anyway (with a
legacy `user_id` property and no `OWNS` edge) and returns it. -/
theorem C3_missing_owner_still_creates :
    ((create_person stC3 "p1" "nouser" none none none none none none none none false
        none none 5).2).isSome = true ∧
    ((create_person stC3 "p1" "nouser" none none none none none none none none false
        none none 5).1.persons.map Person.id) = ["p1"] := by
  refine ⟨?_, ?_⟩
  · decide
  · decide

/-- C3 (amended): when the owner exists, `create_person` creates the
node and its `OWNS` edge together and returns the person; when the owner
does not exist, it does not fail with `OwnerNotFound` but creates the
node anyway, carrying the owner only as a legacy `user_id` property,
with no `OWNS` edge added. -/
theorem C3_create_person_branches (st : GraphState) (pid uid : String)
    (nb bdb ddb bpb dpb pnb snb : Option String) (g : Option String) (ir : Bool)
    (bya dya : Option Int) (now : Nat) :
    ((findUser st uid).isSome = true →
      (((create_person st pid uid nb bdb ddb bpb dpb pnb snb g ir bya dya now).2).isSome =
          true ∧
        ((create_person st pid uid nb bdb ddb bpb dpb pnb snb g ir bya dya
          now).1.persons.any (fun p => p.id = pid)) = true ∧
        ownsEdge (create_person st pid uid nb bdb ddb bpb dpb pnb snb g ir bya dya
          now).1 uid pid = true)) ∧
    ((findUser st uid).isSome = false →
      (((create_person st pid uid nb bdb ddb bpb dpb pnb snb g ir bya dya now).2).isSome =
          true ∧
        ((create_person st pid uid nb bdb ddb bpb dpb pnb snb g ir bya dya
          now).1.persons.any (fun p => p.id = pid ∧ p.user_id = some uid)) = true ∧
        (create_person st pid uid nb bdb ddb bpb dpb pnb snb g ir bya dya
          now).1.owns = st.owns)) := by
  constructor
  · intro h
    rw [Option.isSome_iff_exists] at h
    obtain ⟨u, hu⟩ := h
    simp only [create_person, hu]
    refine ⟨rfl, ?_, ?_⟩
    · simp
    · simp [ownsEdge]
  · intro h
    have hn : findUser st uid = none := by
      cases hu : findUser st uid with
      | none => rfl
      | some u => rw [hu] at h; simp at h
    simp only [create_person, hn]
    refine ⟨rfl, ?_, ?_⟩
    · simp
    · trivial

/-- C3 amended-claim witness: both branches at concrete states — the
empty state (owner missing) and a one-user state (owner present). -/
theorem C3_witness :
    (((create_person stC2 "p9" "alice" none none none none none none none none false
        none none 5).2).isSome = true ∧
      ((create_person stC2 "p9" "alice" none none none none none none none none false
        none none 5).1.persons.any (fun p => p.id = "p9")) = true ∧
      ownsEdge (create_person stC2 "p9" "alice" none none none none none none none none
        false none none 5).1 "alice" "p9" = true) ∧
    (((create_person stC3 "p9" "alice" none none none none none none none none false
        none none 5).2).isSome = true ∧
      ((create_person stC3 "p9" "alice" none none none none none none none none false
        none none 5).1.persons.any (fun p => p.id = "p9" ∧ p.user_id = some "alice")) =
        true ∧
      (create_person stC3 "p9" "alice" none none none none none none none none false
        none none 5).1.owns = stC3.owns) :=
  ⟨(C3_create_person_branches stC2 "p9" "alice" none none none none none none none none
      false none none 5).1 (by decide),
   (C3_create_person_branches stC3 "p9" "alice" none none none none none none none none
      false none none 5).2 (by decide)⟩

/-! ## Symmetric-pair lemmas for SPOUSE and SIBLING edges -/

/-- `setSpouseMeta` never changes the endpoints or type of an edge. -/
theorem setSpouseMeta_keeps (p1 p2 status mtype : String) (mo : Int) (r : Rel) :
    (setSpouseMeta p1 p2 status mtype mo r).src = r.src ∧
      (setSpouseMeta p1 p2 status mtype mo r).dst = r.dst ∧
      (setSpouseMeta p1 p2 status mtype mo r).rtype = r.rtype := by
  unfold setSpouseMeta
  split <;> exact ⟨rfl, rfl, rfl⟩

/-- `setMarriageYear` never changes the endpoints or type of an edge. -/
theorem setMarriageYear_keeps (p1 p2 : String) (y : Int) (r : Rel) :
    (setMarriageYear p1 p2 y r).src = r.src ∧
      (setMarriageYear p1 p2 y r).dst = r.dst ∧
      (setMarriageYear p1 p2 y r).rtype = r.rtype := by
  unfold setMarriageYear
  split <;> exact ⟨rfl, rfl, rfl⟩

/-- `setDivorceYear` never changes the endpoints or type of an edge. -/
theorem setDivorceYear_keeps (p1 p2 : String) (y : Int) (r : Rel) :
    (setDivorceYear p1 p2 y r).src = r.src ∧
      (setDivorceYear p1 p2 y r).dst = r.dst ∧
      (setDivorceYear p1 p2 y r).rtype = r.rtype := by
  unfold setDivorceYear
  split <;> exact ⟨rfl, rfl, rfl⟩

/-- `setMarriageYear` never changes status, ordinal or marriage type. -/
theorem setMarriageYear_meta (p1 p2 : String) (y : Int) (r : Rel) :
    (setMarriageYear p1 p2 y r).props.status = r.props.status ∧
      (setMarriageYear p1 p2 y r).props.marriage_order = r.props.marriage_order ∧
      (setMarriageYear p1 p2 y r).props.marriage_type = r.props.marriage_type := by
  unfold setMarriageYear
  split <;> exact ⟨rfl, rfl, rfl⟩

/-- `setDivorceYear` never changes status, ordinal or marriage type. -/
theorem setDivorceYear_meta (p1 p2 : String) (y : Int) (r : Rel) :
    (setDivorceYear p1 p2 y r).props.status = r.props.status ∧
      (setDivorceYear p1 p2 y r).props.marriage_order = r.props.marriage_order ∧
      (setDivorceYear p1 p2 y r).props.marriage_type = r.props.marriage_type := by
  unfold setDivorceYear
  split <;> exact ⟨rfl, rfl, rfl⟩

/-- On an edge of the pair (either direction), `setSpouseMeta` writes
the shared metadata. -/
theorem setSpouseMeta_sets (p1 p2 status mtype : String) (mo : Int) (r : Rel)
    (h : relMatches p1 p2 "SPOUSE" r = true ∨ relMatches p2 p1 "SPOUSE" r = true) :
    (setSpouseMeta p1 p2 status mtype mo r).props.status = some status ∧
      (setSpouseMeta p1 p2 status mtype mo r).props.marriage_order = some mo ∧
      (setSpouseMeta p1 p2 status mtype mo r).props.marriage_type = some mtype := by
  unfold setSpouseMeta
  rw [if_pos h]
  exact ⟨rfl, rfl, rfl⟩

/-- Edge matching only looks at endpoints and type, so it is invariant
under property rewrites. -/
theorem relMatches_of_keeps {f : Rel → Rel}
    (hf : ∀ r, (f r).src = r.src ∧ (f r).dst = r.dst ∧ (f r).rtype = r.rtype)
    (a b t : String) (r : Rel) : relMatches a b t (f r) = relMatches a b t r := by
  obtain ⟨h1, h2, h3⟩ := hf r
  unfold relMatches
  rw [h1, h2, h3]

/-- After `MERGE` of `(a)-[:t]->(b)` there is exactly one such edge,
provided there was at most one before. -/
theorem countRel_merge_self (rels : List Rel) (a b t : String)
    (h : countRel rels a b t ≤ 1) : countRel (mergeRel rels a b t) a b t = 1 := by
  unfold mergeRel
  split
  · rename_i hAny
    unfold countRel at h ⊢
    have hpos : 0 < rels.countP (fun r => relMatches a b t r) := by
      rw [List.countP_pos_iff]
      obtain ⟨r, hm, hp⟩ := List.any_eq_true.mp hAny
      exact ⟨r, hm, hp⟩
    omega
  · rename_i hAny
    unfold countRel
    rw [List.countP_append]
    have h0 : rels.countP (fun r => relMatches a b t r) = 0 := by
      rw [List.countP_eq_zero]
      intro r hm hp
      exact hAny (List.any_eq_true.mpr ⟨r, hm, hp⟩)
    rw [h0]
    simp [relMatches, List.countP_cons]

/-- `MERGE` of one directed edge does not change the count of any other
(src, dst, type) triple. -/
theorem countRel_merge_other (rels : List Rel) (a b t a2 b2 t2 : String)
    (h : ¬(a = a2 ∧ b = b2 ∧ t = t2)) :
    countRel (mergeRel rels a b t) a2 b2 t2 = countRel rels a2 b2 t2 := by
  unfold mergeRel
  split
  · rfl
  · unfold countRel
    rw [List.countP_append]
    have h0 : List.countP (fun r => relMatches a2 b2 t2 r) [(⟨a, b, t, {}⟩ : Rel)] = 0 := by
      simp only [List.countP_cons, List.countP_nil, relMatches]
      simp only [Nat.zero_add]
      rw [if_neg]
      simp only [decide_eq_true_eq]
      exact h
    rw [h0]
    exact Nat.add_zero _

/-- Mapping a property rewrite over the edge list preserves every
(src, dst, type) count. -/
theorem countRel_map (rels : List Rel) (f : Rel → Rel)
    (hf : ∀ r, (f r).src = r.src ∧ (f r).dst = r.dst ∧ (f r).rtype = r.rtype)
    (a b t : String) : countRel (rels.map f) a b t = countRel rels a b t := by
  unfold countRel
  rw [List.countP_map]
  apply List.countP_congr
  intro r _
  have hm := relMatches_of_keeps hf a b t r
  simp [Function.comp, hm]

/-- Membership after a sibling `MERGE`: an old edge or the new one. -/
theorem mergeSibling_mem (rels : List Rel) (a b stype : String) (r : Rel)
    (h : r ∈ mergeSibling rels a b stype) :
    r ∈ rels ∨ r = ⟨a, b, "SIBLING", { type := some stype }⟩ := by
  unfold mergeSibling at h
  split at h
  · exact Or.inl h
  · rcases List.mem_append.mp h with h | h
    · exact Or.inl h
    · simp at h
      exact Or.inr h

/-- After a sibling `MERGE` there is exactly one directed `SIBLING` edge
of the pair, provided there was at most one and every existing SIBLING
edge of the pair carries the same classification (a differently-typed
edge would not be matched by the property pattern and a duplicate would
be created). -/
theorem countRel_mergeSibling_self (rels : List Rel) (a b stype : String)
    (hcount : countRel rels a b "SIBLING" ≤ 1)
    (htype : ∀ r ∈ rels, relMatches a b "SIBLING" r = true → r.props.type = some stype) :
    countRel (mergeSibling rels a b stype) a b "SIBLING" = 1 := by
  unfold mergeSibling
  split
  · rename_i hAny
    obtain ⟨r, hm, hp⟩ := List.any_eq_true.mp hAny
    simp only [decide_eq_true_eq] at hp
    unfold countRel at hcount ⊢
    have hpos : 0 < rels.countP (fun r => relMatches a b "SIBLING" r) := by
      rw [List.countP_pos_iff]
      exact ⟨r, hm, hp.1⟩
    omega
  · rename_i hAny
    unfold countRel
    rw [List.countP_append]
    have h0 : rels.countP (fun r => relMatches a b "SIBLING" r) = 0 := by
      rw [List.countP_eq_zero]
      intro r hm hp
      refine hAny (List.any_eq_true.mpr ⟨r, hm, ?_⟩)
      simp only [decide_eq_true_eq]
      exact ⟨hp, htype r hm hp⟩
    rw [h0]
    simp [relMatches, List.countP_cons]

/-- A sibling `MERGE` does not change the count of any other
(src, dst, type) triple. -/
theorem countRel_mergeSibling_other (rels : List Rel) (a b stype a2 b2 t2 : String)
    (h : ¬(a = a2 ∧ b = b2 ∧ ("SIBLING" : String) = t2)) :
    countRel (mergeSibling rels a b stype) a2 b2 t2 = countRel rels a2 b2 t2 := by
  unfold mergeSibling
  split
  · rfl
  · unfold countRel
    rw [List.countP_append]
    have h0 : List.countP (fun r => relMatches a2 b2 t2 r)
        [(⟨a, b, "SIBLING", { type := some stype }⟩ : Rel)] = 0 := by
      simp only [List.countP_cons, List.countP_nil, relMatches]
      simp only [Nat.zero_add]
      rw [if_neg]
      simp only [decide_eq_true_eq]
      exact h
    rw [h0]
    exact Nat.add_zero _

/-- The symmetric-pair property of the spouse pair is preserved by a map
that keeps endpoints, type, status, ordinal and marriage type. -/
theorem pairSpec_map (L : List Rel) (p1 p2 status mtype : String) (mo : Int) (f : Rel → Rel)
    (hkeep : ∀ r, (f r).src = r.src ∧ (f r).dst = r.dst ∧ (f r).rtype = r.rtype)
    (hprops : ∀ r, (f r).props.status = r.props.status ∧
      (f r).props.marriage_order = r.props.marriage_order ∧
      (f r).props.marriage_type = r.props.marriage_type)
    (h : countRel L p1 p2 "SPOUSE" = 1 ∧ countRel L p2 p1 "SPOUSE" = 1 ∧
      ∀ r ∈ L, (relMatches p1 p2 "SPOUSE" r = true ∨ relMatches p2 p1 "SPOUSE" r = true) →
        r.props.status = some status ∧ r.props.marriage_order = some mo ∧
          r.props.marriage_type = some mtype) :
    countRel (L.map f) p1 p2 "SPOUSE" = 1 ∧ countRel (L.map f) p2 p1 "SPOUSE" = 1 ∧
      ∀ r ∈ L.map f,
        (relMatches p1 p2 "SPOUSE" r = true ∨ relMatches p2 p1 "SPOUSE" r = true) →
        r.props.status = some status ∧ r.props.marriage_order = some mo ∧
          r.props.marriage_type = some mtype := by
  obtain ⟨hc1, hc2, hp⟩ := h
  refine ⟨?_, ?_, ?_⟩
  · rw [countRel_map _ _ hkeep]
    exact hc1
  · rw [countRel_map _ _ hkeep]
    exact hc2
  · intro r hr hm
    obtain ⟨r0, hr0, rfl⟩ := List.mem_map.mp hr
    simp only [relMatches_of_keeps hkeep] at hm
    obtain ⟨s1, s2, s3⟩ := hprops r0
    obtain ⟨t1, t2, t3⟩ := hp r0 hr0 hm
    exact ⟨by rw [s1, t1], by rw [s2, t2], by rw [s3, t3]⟩

/-- The full edge-write chain of `add_spouse` yields exactly one directed
`SPOUSE` edge per direction, both carrying the identical shared
metadata. -/
theorem spouseChain_spec (rels : List Rel) (p1 p2 status mtype : String) (mo : Int)
    (my dy : Option Int) (hne : p1 ≠ p2)
    (h1 : countRel rels p1 p2 "SPOUSE" ≤ 1) (h2 : countRel rels p2 p1 "SPOUSE" ≤ 1) :
    countRel (spouseChain rels p1 p2 status mtype mo my dy) p1 p2 "SPOUSE" = 1 ∧
      countRel (spouseChain rels p1 p2 status mtype mo my dy) p2 p1 "SPOUSE" = 1 ∧
      ∀ r ∈ spouseChain rels p1 p2 status mtype mo my dy,
        (relMatches p1 p2 "SPOUSE" r = true ∨ relMatches p2 p1 "SPOUSE" r = true) →
        r.props.status = some status ∧ r.props.marriage_order = some mo ∧
          r.props.marriage_type = some mtype := by
  have hm1 : countRel (mergeRel rels p1 p2 "SPOUSE") p1 p2 "SPOUSE" = 1 :=
    countRel_merge_self rels p1 p2 "SPOUSE" h1
  have hother1 : countRel (mergeRel rels p1 p2 "SPOUSE") p2 p1 "SPOUSE" =
      countRel rels p2 p1 "SPOUSE" :=
    countRel_merge_other rels p1 p2 "SPOUSE" p2 p1 "SPOUSE" (fun hc => hne hc.1)
  have hm2 : countRel (mergeRel (mergeRel rels p1 p2 "SPOUSE") p2 p1 "SPOUSE")
      p2 p1 "SPOUSE" = 1 := by
    apply countRel_merge_self
    rw [hother1]
    exact h2
  have hm2b : countRel (mergeRel (mergeRel rels p1 p2 "SPOUSE") p2 p1 "SPOUSE")
      p1 p2 "SPOUSE" = 1 := by
    rw [countRel_merge_other _ p2 p1 "SPOUSE" p1 p2 "SPOUSE" (fun hc => hne hc.1.symm)]
    exact hm1
  have K1 := setSpouseMeta_keeps p1 p2 status mtype mo
  have base : countRel ((mergeRel (mergeRel rels p1 p2 "SPOUSE") p2 p1 "SPOUSE").map
        (setSpouseMeta p1 p2 status mtype mo)) p1 p2 "SPOUSE" = 1 ∧
      countRel ((mergeRel (mergeRel rels p1 p2 "SPOUSE") p2 p1 "SPOUSE").map
        (setSpouseMeta p1 p2 status mtype mo)) p2 p1 "SPOUSE" = 1 ∧
      ∀ r ∈ (mergeRel (mergeRel rels p1 p2 "SPOUSE") p2 p1 "SPOUSE").map
          (setSpouseMeta p1 p2 status mtype mo),
        (relMatches p1 p2 "SPOUSE" r = true ∨ relMatches p2 p1 "SPOUSE" r = true) →
        r.props.status = some status ∧ r.props.marriage_order = some mo ∧
          r.props.marriage_type = some mtype := by
    refine ⟨?_, ?_, ?_⟩
    · rw [countRel_map _ _ K1]
      exact hm2b
    · rw [countRel_map _ _ K1]
      exact hm2
    · intro r hr hm
      obtain ⟨r0, hr0, rfl⟩ := List.mem_map.mp hr
      simp only [relMatches_of_keeps K1] at hm
      exact setSpouseMeta_sets p1 p2 status mtype mo r0 hm
  unfold spouseChain
  rcases my with _ | y1 <;> rcases dy with _ | y2
  · exact base
  · exact pairSpec_map _ p1 p2 status mtype mo _ (setDivorceYear_keeps p1 p2 y2)
      (setDivorceYear_meta p1 p2 y2) base
  · exact pairSpec_map _ p1 p2 status mtype mo _ (setMarriageYear_keeps p1 p2 y1)
      (setMarriageYear_meta p1 p2 y1) base
  · exact pairSpec_map _ p1 p2 status mtype mo _ (setDivorceYear_keeps p1 p2 y2)
      (setDivorceYear_meta p1 p2 y2)
      (pairSpec_map _ p1 p2 status mtype mo _ (setMarriageYear_keeps p1 p2 y1)
        (setMarriageYear_meta p1 p2 y1) base)

/-- Both sibling `MERGE`s together yield exactly one directed edge per
direction, all carrying the given classification. -/
theorem siblingPair_spec (rels : List Rel) (p1 p2 stype : String) (hne : p1 ≠ p2)
    (h1 : countRel rels p1 p2 "SIBLING" ≤ 1) (h2 : countRel rels p2 p1 "SIBLING" ≤ 1)
    (ht : ∀ r ∈ rels,
      (relMatches p1 p2 "SIBLING" r = true ∨ relMatches p2 p1 "SIBLING" r = true) →
      r.props.type = some stype) :
    countRel (mergeSibling (mergeSibling rels p1 p2 stype) p2 p1 stype)
        p1 p2 "SIBLING" = 1 ∧
      countRel (mergeSibling (mergeSibling rels p1 p2 stype) p2 p1 stype)
        p2 p1 "SIBLING" = 1 ∧
      ∀ r ∈ mergeSibling (mergeSibling rels p1 p2 stype) p2 p1 stype,
        (relMatches p1 p2 "SIBLING" r = true ∨ relMatches p2 p1 "SIBLING" r = true) →
        r.props.type = some stype := by
  have hts1 : ∀ r ∈ mergeSibling rels p1 p2 stype,
      (relMatches p1 p2 "SIBLING" r = true ∨ relMatches p2 p1 "SIBLING" r = true) →
      r.props.type = some stype := by
    intro r hr hm
    rcases mergeSibling_mem rels p1 p2 stype r hr with h | h
    · exact ht r h hm
    · rw [h]
  have hc1 : countRel (mergeSibling rels p1 p2 stype) p1 p2 "SIBLING" = 1 :=
    countRel_mergeSibling_self rels p1 p2 stype h1 (fun r hr hm => ht r hr (Or.inl hm))
  have hc1b : countRel (mergeSibling rels p1 p2 stype) p2 p1 "SIBLING" =
      countRel rels p2 p1 "SIBLING" :=
    countRel_mergeSibling_other rels p1 p2 stype p2 p1 "SIBLING" (fun hc => hne hc.1)
  have hc2 : countRel (mergeSibling (mergeSibling rels p1 p2 stype) p2 p1 stype)
      p2 p1 "SIBLING" = 1 := by
    apply countRel_mergeSibling_self
    · rw [hc1b]
      exact h2
    · exact fun r hr hm => hts1 r hr (Or.inr hm)
  have hc2b : countRel (mergeSibling (mergeSibling rels p1 p2 stype) p2 p1 stype)
      p1 p2 "SIBLING" = 1 := by
    rw [countRel_mergeSibling_other _ p2 p1 stype p1 p2 "SIBLING"
      (fun hc => hne hc.1.symm)]
    exact hc1
  refine ⟨hc2b, hc2, ?_⟩
  intro r hr hm
  rcases mergeSibling_mem _ p2 p1 stype r hr with h | h
  · exact hts1 r h hm
  · rw [h]

/-- On success, the edges written by `add_spouse` are the `spouseChain`. -/
theorem add_spouse_success_rels (st : GraphState) (p1 p2 uid : String)
    (my dy : Option Int) (status : String) (mt : Option String) (mo : Int)
    (h : (add_spouse st p1 p2 uid my dy status mt mo).2 = true) :
    (add_spouse st p1 p2 uid my dy status mt mo).1.rels =
      spouseChain st.rels p1 p2 status (mt.getD "civil") mo my dy := by
  simp only [add_spouse] at h ⊢
  split at h
  · rename_i hc
    rw [if_pos hc]
  · simp at h

/-- On success, the edges written by `add_sibling` are the two merges. -/
theorem add_sibling_success_rels (st : GraphState) (p1 p2 uid stype : String)
    (h : (add_sibling st p1 p2 uid stype).2 = true) :
    (add_sibling st p1 p2 uid stype).1.rels =
      mergeSibling (mergeSibling st.rels p1 p2 stype) p2 p1 stype := by
  simp only [add_sibling] at h ⊢
  split at h
  · rename_i hc
    rw [if_pos hc]
  · simp at h

/-- Two bare persons for the half-edge scenario. -/
def pA : Person := { id := "a" }

/-- Second person of the half-edge scenario. -/
def pB : Person := { id := "b" }

/-- State with two persons and no edges. -/
def stC4 : GraphState :=
  { users := [], persons := [pA, pB], owns := [], shared_with := [], rels := [],
    invites := [] }

/-- C4 counterexample: a single `create_relationship` call recording a
`SPOUSE` relationship succeeds but produces exactly one directed edge
and no inverse — an asymmetric half-edge. -/
theorem C4_half_edge_counterexample :
    (create_relationship stC4 "a" "b" "SPOUSE" none 7).2 = true ∧
      countRel (create_relationship stC4 "a" "b" "SPOUSE" none 7).1.rels
        "a" "b" "SPOUSE" = 1 ∧
      countRel (create_relationship stC4 "a" "b" "SPOUSE" none 7).1.rels
        "b" "a" "SPOUSE" = 0 := by
  refine ⟨?_, ?_, ?_⟩ <;> decide

/-- C4 (amended): `add_spouse` and `add_sibling` do produce the matched
pair — exactly one edge per direction, with the shared metadata written
identically on both (for `SIBLING`, provided no differently-classified
sibling edge already links the pair) — but `create_relationship` writes
only a single directed edge per call, so a lone call for `SPOUSE` or
`SIBLING` leaves an asymmetric half-edge; the API layer compensates by
invoking it once per direction. -/
theorem C4_symmetric_pairs :
    (∀ (st : GraphState) (p1 p2 uid : String) (my dy : Option Int) (status : String)
        (mt : Option String) (mo : Int), p1 ≠ p2 →
      countRel st.rels p1 p2 "SPOUSE" ≤ 1 → countRel st.rels p2 p1 "SPOUSE" ≤ 1 →
      (add_spouse st p1 p2 uid my dy status mt mo).2 = true →
      (countRel (add_spouse st p1 p2 uid my dy status mt mo).1.rels p1 p2 "SPOUSE" = 1 ∧
        countRel (add_spouse st p1 p2 uid my dy status mt mo).1.rels p2 p1 "SPOUSE" = 1 ∧
        ∀ r ∈ (add_spouse st p1 p2 uid my dy status mt mo).1.rels,
          (relMatches p1 p2 "SPOUSE" r = true ∨ relMatches p2 p1 "SPOUSE" r = true) →
          r.props.status = some status ∧ r.props.marriage_order = some mo ∧
            r.props.marriage_type = some (mt.getD "civil"))) ∧
    (∀ (st : GraphState) (p1 p2 uid stype : String), p1 ≠ p2 →
      countRel st.rels p1 p2 "SIBLING" ≤ 1 → countRel st.rels p2 p1 "SIBLING" ≤ 1 →
      (∀ r ∈ st.rels, (relMatches p1 p2 "SIBLING" r = true ∨
        relMatches p2 p1 "SIBLING" r = true) → r.props.type = some stype) →
      (add_sibling st p1 p2 uid stype).2 = true →
      (countRel (add_sibling st p1 p2 uid stype).1.rels p1 p2 "SIBLING" = 1 ∧
        countRel (add_sibling st p1 p2 uid stype).1.rels p2 p1 "SIBLING" = 1 ∧
        ∀ r ∈ (add_sibling st p1 p2 uid stype).1.rels,
          (relMatches p1 p2 "SIBLING" r = true ∨ relMatches p2 p1 "SIBLING" r = true) →
          r.props.type = some stype)) := by
  constructor
  · intro st p1 p2 uid my dy status mt mo hne h1 h2 hs
    rw [add_spouse_success_rels st p1 p2 uid my dy status mt mo hs]
    exact spouseChain_spec st.rels p1 p2 status (mt.getD "civil") mo my dy hne h1 h2
  · intro st p1 p2 uid stype hne h1 h2 ht hs
    rw [add_sibling_success_rels st p1 p2 uid stype hs]
    exact siblingPair_spec st.rels p1 p2 stype hne h1 h2 ht

/-- Owner user of the witness state for the pair invariant. -/
def c4owner : User := { id := "u4" }

/-- Person `a`, owned via `OWNS` and via the legacy `user_id` property. -/
def pASib : Person := { id := "a", user_id := some "u4" }

/-- Person `b`, owned via `OWNS` and via the legacy `user_id` property. -/
def pBSib : Person := { id := "b", user_id := some "u4" }

/-- Witness state: both persons owned by `u4`, no edges yet. -/
def stC4b : GraphState :=
  { users := [c4owner], persons := [pASib, pBSib],
    owns := [⟨"u4", "a"⟩, ⟨"u4", "b"⟩], shared_with := [], rels := [], invites := [] }

/-- C4 amended-claim witness: the pair invariant evaluated on a concrete
spouse and sibling creation. -/
theorem C4_witness :
    countRel (add_spouse stC4b "a" "b" "u4" none none "married" none 1).1.rels
        "a" "b" "SPOUSE" = 1 ∧
      countRel (add_spouse stC4b "a" "b" "u4" none none "married" none 1).1.rels
        "b" "a" "SPOUSE" = 1 ∧
      countRel (add_sibling stC4b "a" "b" "u4" "full").1.rels "a" "b" "SIBLING" = 1 ∧
      countRel (add_sibling stC4b "a" "b" "u4" "full").1.rels "b" "a" "SIBLING" = 1 :=
  ⟨(C4_symmetric_pairs.1 stC4b "a" "b" "u4" none none "married" none 1 (by decide)
      (by decide) (by decide) (by decide)).1,
   (C4_symmetric_pairs.1 stC4b "a" "b" "u4" none none "married" none 1 (by decide)
      (by decide) (by decide) (by decide)).2.1,
   (C4_symmetric_pairs.2 stC4b "a" "b" "u4" "full" (by decide) (by decide) (by decide)
      (by intro r hr hm; simp [stC4b] at hr) (by decide)).1,
   (C4_symmetric_pairs.2 stC4b "a" "b" "u4" "full" (by decide) (by decide) (by decide)
      (by intro r hr hm; simp [stC4b] at hr) (by decide)).2.1⟩

/-! ## Delete / ghost semantics -/

/-- C5: `delete_person` semantics.  For an owner (`OWNS`), the person is
ghosted (tombstone, timestamp and synthesized label set; node and every
edge retained) iff it has at least one outgoing `PARENT_OF` edge, and
hard-deleted together with every touching edge otherwise; a caller
holding only a `SHARED_WITH` edge merely loses that edge; a caller with
no ownership or sharing relationship (including the legacy property
forms) gets not-found and the state is unchanged. -/
theorem C5_delete_person_semantics :
    (∀ (st : GraphState) (pid uid : String) (now : Nat),
      (findUser st uid).isSome = true → (findPerson st pid).isSome = true →
      ownsEdge st uid pid = true → 0 < descendantsCount st pid →
      ((delete_person st pid uid now).2 = ⟨"ghosted", true⟩ ∧
        (∃ p ∈ (delete_person st pid uid now).1.persons, p.id = pid ∧
          p.is_deleted = true ∧ p.ghost_name.isSome = true ∧ p.deleted_at = some now) ∧
        (delete_person st pid uid now).1.rels = st.rels ∧
        (delete_person st pid uid now).1.owns = st.owns ∧
        (delete_person st pid uid now).1.shared_with = st.shared_with)) ∧
    (∀ (st : GraphState) (pid uid : String) (now : Nat),
      (findUser st uid).isSome = true → (findPerson st pid).isSome = true →
      ownsEdge st uid pid = true → descendantsCount st pid = 0 →
      ((delete_person st pid uid now).2 = ⟨"deleted", true⟩ ∧
        (∀ p ∈ (delete_person st pid uid now).1.persons, p.id ≠ pid) ∧
        (∀ r ∈ (delete_person st pid uid now).1.rels, r.src ≠ pid ∧ r.dst ≠ pid) ∧
        (∀ o ∈ (delete_person st pid uid now).1.owns, o.person_id ≠ pid) ∧
        (∀ s1 ∈ (delete_person st pid uid now).1.shared_with, s1.person_id ≠ pid) ∧
        (∀ p ∈ st.persons, p.id ≠ pid → p ∈ (delete_person st pid uid now).1.persons) ∧
        (∀ r ∈ st.rels, r.src ≠ pid → r.dst ≠ pid →
          r ∈ (delete_person st pid uid now).1.rels))) ∧
    (∀ (st : GraphState) (pid uid : String) (now : Nat),
      (findUser st uid).isSome = true → (findPerson st pid).isSome = true →
      ownsEdge st uid pid = false → sharedEdge st uid pid = true →
      ((delete_person st pid uid now).2 = ⟨"unshared", true⟩ ∧
        (delete_person st pid uid now).1.persons = st.persons ∧
        (delete_person st pid uid now).1.rels = st.rels ∧
        (delete_person st pid uid now).1.owns = st.owns ∧
        (∀ s1 ∈ (delete_person st pid uid now).1.shared_with,
          ¬(s1.user_id = uid ∧ s1.person_id = pid)) ∧
        (∀ s1 ∈ st.shared_with, ¬(s1.user_id = uid ∧ s1.person_id = pid) →
          s1 ∈ (delete_person st pid uid now).1.shared_with))) ∧
    (∀ (st : GraphState) (pid uid : String) (now : Nat),
      ownsEdge st uid pid = false → sharedEdge st uid pid = false →
      (∀ p ∈ st.persons, ¬(p.id = pid ∧ p.owner_id = some uid)) →
      (∀ p ∈ st.persons, ¬(p.id = pid ∧ p.user_id = some uid)) →
      delete_person st pid uid now = (st, ⟨"not_found", false⟩)) := by
  refine ⟨?_, ?_, ?_, ?_⟩
  · intro st pid uid now hu hp ho hd
    unfold delete_person
    rw [if_pos ⟨hu, hp, ho⟩, if_pos hd]
    refine ⟨rfl, ?_, rfl, rfl, rfl⟩
    rw [Option.isSome_iff_exists] at hp
    obtain ⟨p0, hp0⟩ := hp
    unfold findPerson at hp0
    have hmem := List.mem_of_find?_eq_some hp0
    have hid : p0.id = pid := by
      have := List.find?_some hp0
      simpa using this
    refine ⟨(fun p => if p.id = pid then
        { p with
          is_deleted := true,
          deleted_at := some now,
          ghost_name := some (generate_ghost_name st pid uid) }
        else p) p0, ?_, ?_⟩
    · exact List.mem_map_of_mem _ hmem
    · simp [hid]
  · intro st pid uid now hu hp ho hd
    unfold delete_person
    rw [if_pos ⟨hu, hp, ho⟩, if_neg (by omega)]
    refine ⟨rfl, ?_, ?_, ?_, ?_, ?_, ?_⟩
    · intro p hp2
      have := (List.mem_filter.mp hp2).2
      simpa using this
    · intro r hr
      have := (List.mem_filter.mp hr).2
      simpa using this
    · intro o hoo
      have := (List.mem_filter.mp hoo).2
      simpa using this
    · intro s1 hs1
      have := (List.mem_filter.mp hs1).2
      simpa using this
    · intro p hp2 hne
      exact List.mem_filter.mpr ⟨hp2, by simpa using hne⟩
    · intro r hr hne1 hne2
      exact List.mem_filter.mpr ⟨hr, by simp [hne1, hne2]⟩
  · intro st pid uid now hu hp ho hs
    unfold delete_person
    have hnot1 : ¬((findUser st uid).isSome = true ∧ (findPerson st pid).isSome = true ∧
        ownsEdge st uid pid = true) := by
      rintro ⟨-, -, h3⟩
      rw [ho] at h3
      exact Bool.false_ne_true h3
    rw [if_neg hnot1, if_pos ⟨hu, hp, hs⟩]
    refine ⟨rfl, rfl, rfl, rfl, ?_, ?_⟩
    · intro s1 hs1
      exact of_decide_eq_true (List.mem_filter.mp hs1).2
    · intro s1 hs1 hne
      exact List.mem_filter.mpr ⟨hs1, decide_eq_true hne⟩
  · intro st pid uid now ho hs h3 h4
    unfold delete_person
    have hnot1 : ¬((findUser st uid).isSome = true ∧ (findPerson st pid).isSome = true ∧
        ownsEdge st uid pid = true) := by
      rintro ⟨-, -, hc⟩
      rw [ho] at hc
      exact Bool.false_ne_true hc
    have hnot2 : ¬((findUser st uid).isSome = true ∧ (findPerson st pid).isSome = true ∧
        sharedEdge st uid pid = true) := by
      rintro ⟨-, -, hc⟩
      rw [hs] at hc
      exact Bool.false_ne_true hc
    have hnot3 : ¬(st.persons.any (fun p => p.id = pid ∧ p.owner_id = some uid) = true) := by
      intro hc
      obtain ⟨p, hm, hpp⟩ := List.any_eq_true.mp hc
      exact h3 p hm (by simpa using hpp)
    have hnot4 : ¬(st.persons.any (fun p => p.id = pid ∧ p.user_id = some uid) = true) := by
      intro hc
      obtain ⟨p, hm, hpp⟩ := List.any_eq_true.mp hc
      exact h4 p hm (by simpa using hpp)
    rw [if_neg hnot1, if_neg hnot2, if_neg hnot3, if_neg hnot4]

/-- Owner user of the delete scenarios. -/
def c5owner : User := { id := "o1" }

/-- Guest user of the delete scenarios. -/
def c5guest : User := { id := "g1" }

/-- A parent person (will have a recorded child). -/
def c5parent : Person := { id := "par" }

/-- A child person. -/
def c5child : Person := { id := "chi" }

/-- Ghost scenario: the owner deletes a person with a recorded child. -/
def stC5g : GraphState :=
  { users := [c5owner], persons := [c5parent, c5child],
    owns := [⟨"o1", "par"⟩, ⟨"o1", "chi"⟩], shared_with := [],
    rels := [⟨"par", "chi", "PARENT_OF", {}⟩, ⟨"chi", "par", "CHILD_OF", {}⟩],
    invites := [] }

/-- Hard-delete scenario: the owner deletes a person with no child. -/
def stC5d : GraphState :=
  { users := [c5owner], persons := [c5parent], owns := [⟨"o1", "par"⟩],
    shared_with := [], rels := [], invites := [] }

/-- Unshare scenario: a guest "deletes" a shared person. -/
def stC5u : GraphState :=
  { users := [c5owner, c5guest], persons := [c5parent], owns := [⟨"o1", "par"⟩],
    shared_with := [⟨"g1", "par", none⟩], rels := [], invites := [] }

/-- C5 witness: all four delete behaviours at concrete states. -/
theorem C5_witness :
    (delete_person stC5g "par" "o1" 9).2 = ⟨"ghosted", true⟩ ∧
      (delete_person stC5d "par" "o1" 9).2 = ⟨"deleted", true⟩ ∧
      (delete_person stC5u "par" "g1" 9).2 = ⟨"unshared", true⟩ ∧
      delete_person stC5u "par" "nobody" 9 = (stC5u, ⟨"not_found", false⟩) :=
  ⟨(C5_delete_person_semantics.1 stC5g "par" "o1" 9 (by decide) (by decide) (by decide)
      (by decide)).1,
   (C5_delete_person_semantics.2.1 stC5d "par" "o1" 9 (by decide) (by decide) (by decide)
      (by decide)).1,
   (C5_delete_person_semantics.2.2.1 stC5u "par" "g1" 9 (by decide) (by decide)
      (by decide) (by decide)).1,
   C5_delete_person_semantics.2.2.2 stC5u "par" "nobody" 9 (by decide) (by decide)
      (by decide) (by decide)⟩

end Rodovid
